import Mathlib

/-!
A shallow embedding of `src/youtube_bootlegger/core/template_parser.py`:
the template-driven tracklist parser (template validation, template
compilation to a line-matching pattern, single-line parsing, strict
tracklist parsing, and fault-tolerant preview parsing).

Python strings are modelled as `String` / `List Char`; the Python `re`
engine is modelled by an executable regex AST with a backtracking matcher
covering exactly the constructs that the compiled templates use
(literals, `.`, `\d`, escaped punctuation, named groups `(?P<n>...)`,
non-capturing groups `(?:...)`, greedy/lazy `+` `*` `?` and bounded
counted repetition).  Constructs outside this subset make compilation
return `none`, which the validator reports as an invalid pattern exactly
like a host `re.error`.  Machine floats in the source only ever hold
integer second counts here, so seconds are `Nat`.
-/

namespace TemplateParser

/-- Python `str` whitespace used by `str.strip()` (ASCII part). -/
def pyIsSpace (c : Char) : Bool :=
  c == ' ' || c == '\t' || c == '\n' || c == '\r' || c == '\x0b' || c == '\x0c'

/-- Python `str.strip()` on a character list. -/
def pyStrip (l : List Char) : List Char :=
  ((l.dropWhile pyIsSpace).reverse.dropWhile pyIsSpace).reverse

/-- Python `text.split("\n")`. -/
def splitNL : List Char → List (List Char)
  | [] => [[]]
  | c :: cs =>
    if c = '\n' then [] :: splitNL cs
    else
      match splitNL cs with
      | [] => [[c]]
      | l :: ls => (c :: l) :: ls

/-- Iteration core of `str.replace`; `fuel` bounds the number of steps
(each step consumes at least one character when `pat` is non-empty) and
is structural so that concrete runs reduce in the kernel. -/
def listReplaceGo (pat rep : List Char) : Nat → List Char → List Char
  | _, [] => []
  | 0, s => s
  | fuel + 1, c :: cs =>
    if pat.isPrefixOf (c :: cs) then
      rep ++ listReplaceGo pat rep fuel ((c :: cs).drop pat.length)
    else
      c :: listReplaceGo pat rep fuel cs

/-- Python `str.replace(pat, rep)`: replace every leftmost non-overlapping
occurrence.  (An empty `pat` never occurs in the source's calls.) -/
def listReplace (s pat rep : List Char) : List Char :=
  if pat.isEmpty then s else listReplaceGo pat rep s.length s

/-- The characters that Python `re.escape` prefixes with a backslash. -/
def pySpecial : List Char :=
  ['(', ')', '[', ']', '\x7b', '\x7d', '?', '*', '+', '-', '|', '^', '$',
   '\\', '.', '&', '~', '#', ' ', '\t', '\n', '\r', '\x0b', '\x0c']

/-- Python `re.escape`. -/
def reEscape (s : List Char) : List Char :=
  match s with
  | [] => []
  | c :: cs => (if pySpecial.contains c then ['\\', c] else [c]) ++ reEscape cs

/-- Substring containment (Python `in` on strings). -/
def containsSub : (hay needle : List Char) → Bool
  | [], needle => needle.isEmpty
  | c :: cs, needle => needle.isPrefixOf (c :: cs) || containsSub cs needle

/-! ## The `%ignore:...%` scanner

`IGNORE_PATTERN = re.compile(r"%ignore:(.+?)%")` and its `finditer`:
at each position, the literal `%ignore:` must match, then the lazy `(.+?)`
takes the shortest non-empty run of non-newline characters that is
followed by a `%`.  `finditer` resumes scanning after each match. -/

/-- The literal lead-in of an ignore token, `%ignore:`. -/
def ignoreLead : List Char := ['%', 'i', 'g', 'n', 'o', 'r', 'e', ':']

/-- Scan for the lazy `(.+?)%` part: `acc` holds the (reversed) inner
characters taken so far (at least one). -/
def scanInnerGo (acc : List Char) : List Char → Option (List Char × List Char)
  | [] => none
  | d :: ds =>
    if d = '%' then some (acc.reverse, ds)
    else if d = '\n' then none
    else scanInnerGo (d :: acc) ds

/-- Match `(.+?)%` at the start of `s`: the shortest non-empty inner text
followed by a closing `%`.  Returns (inner, rest after the closing `%`). -/
def scanInner (s : List Char) : Option (List Char × List Char) :=
  match s with
  | [] => none
  | c :: rest => if c = '\n' then none else scanInnerGo [c] rest

/-- Scanning core of `finditer`, structural on `fuel` (each step either
advances one character or jumps past a whole match). -/
def findIgnoresGo : Nat → List Char → List (List Char × List Char)
  | 0, _ => []
  | _ + 1, [] => []
  | fuel + 1, c :: cs =>
    if ignoreLead.isPrefixOf (c :: cs) then
      match scanInner ((c :: cs).drop 8) with
      | some (inner, rest) =>
        (ignoreLead ++ inner ++ ['%'], inner) :: findIgnoresGo fuel rest
      | none => findIgnoresGo fuel cs
    else findIgnoresGo fuel cs

/-- `IGNORE_PATTERN.finditer(template)`: every match of `%ignore:(.+?)%`,
as (whole match, inner group) pairs, left to right, resuming after each
match. -/
def findIgnores (s : List Char) : List (List Char × List Char) :=
  findIgnoresGo (s.length + 1) s

/-! ## Regex AST and backtracking matcher

A model of the fragment of Python `re` that compiled templates use.
`rep r lo hi lz` is counted repetition (`hi = none` means unbounded,
`lz = true` means lazy/non-greedy). -/

inductive Reg where
  | eps
  | lit (c : Char)
  | dot
  | digit
  | wsp
  | seq (a b : Reg)
  | grp (name : String) (r : Reg)
  | rep (r : Reg) (lo : Nat) (hi : Option Nat) (lz : Bool)
deriving Repr, DecidableEq

/-- Named-capture environment (`match.groupdict()` restricted to the
groups that participated; absent key = `KeyError` / `.get` default). -/
abbrev Caps := List (String × List Char)

def setCap (n : String) (v : List Char) : Caps → Caps
  | [] => [(n, v)]
  | (m, w) :: rest => if m = n then (n, v) :: rest else (m, w) :: setCap n v rest

def lookupCap (n : String) : Caps → Option (List Char)
  | [] => none
  | (m, w) :: rest => if m = n then some w else lookupCap n rest

/-- Backtracking matcher: all ways `r` can match a prefix of `s`, as
(remaining suffix, captures) pairs in Python preference order (greedy
repetition prefers more iterations, lazy prefers fewer; sequences are
explored left to right, depth first).  `fuel` bounds unbounded-repetition
unrolling; the callers below always supply enough. -/
def mtch : Nat → Reg → List Char → Caps → List (List Char × Caps)
  | 0, _, _, _ => []
  | fuel + 1, r, s, g =>
    match r with
    | .eps => [(s, g)]
    | .lit c =>
      match s with
      | [] => []
      | d :: s' => if c = d then [(s', g)] else []
    | .dot =>
      match s with
      | [] => []
      | d :: s' => if d = '\n' then [] else [(s', g)]
    | .digit =>
      match s with
      | [] => []
      | d :: s' => if d.isDigit then [(s', g)] else []
    | .wsp =>
      match s with
      | [] => []
      | d :: s' => if pyIsSpace d then [(s', g)] else []
    | .seq a b => (mtch fuel a s g).flatMap (fun p => mtch fuel b p.1 p.2)
    | .grp n r' =>
      (mtch fuel r' s g).map
        (fun p => (p.1, setCap n (s.take (s.length - p.1.length)) p.2))
    | .rep r' (lo + 1) hi lz =>
      (mtch fuel r' s g).flatMap
        (fun p => mtch fuel (.rep r' lo (hi.map (· - 1)) lz) p.1 p.2)
    | .rep _ 0 (some 0) _ => [(s, g)]
    | .rep r' 0 hi lz =>
      let more := (mtch fuel r' s g).flatMap
        (fun p => mtch fuel (.rep r' 0 (hi.map (· - 1)) lz) p.1 p.2)
      if lz then (s, g) :: more else more ++ [(s, g)]

/-- Structural size of a pattern (executable, for fuel computation). -/
def regSize : Reg → Nat
  | .eps | .lit _ | .dot | .digit | .wsp => 1
  | .seq a b => regSize a + regSize b + 1
  | .grp _ r => regSize r + 1
  | .rep r _ _ _ => regSize r + 1

/-- Fuel that is ample for every pattern this file evaluates: recursion
depth is bounded by the nesting of the pattern times the number of
characters any repetition chain can consume. -/
def matchFuel (r : Reg) (s : List Char) : Nat := (s.length + 2) * (regSize r + 2)

/-- `pattern.match(s)` for a start-and-end anchored pattern: the first
full match in preference order, as its capture environment. -/
def doFullMatch (r : Reg) (s : List Char) : Option Caps :=
  (((mtch (matchFuel r s) r s []).filter (fun p => p.1.isEmpty)).head?).map (·.2)

/-! ## Parsing the generated pattern strings -/

def digitsToNat (l : List Char) : Nat := l.foldl (fun a c => a * 10 + (c.toNat - 48)) 0

/-- Postfix quantifiers.  `canQ = false` (the atom was a named group)
rejects a following quantifier: repetition of a named capture could leave
the group unset, which the modelled code never has to face. -/
def parseQuant (r : Reg) (canQ : Bool) (s : List Char) : Option (Reg × List Char) :=
  match s with
  | '+' :: '?' :: rest => if canQ then some (.rep r 1 none true, rest) else none
  | '+' :: rest => if canQ then some (.rep r 1 none false, rest) else none
  | '*' :: '?' :: rest => if canQ then some (.rep r 0 none true, rest) else none
  | '*' :: rest => if canQ then some (.rep r 0 none false, rest) else none
  | '?' :: '?' :: rest => if canQ then some (.rep r 0 (some 1) true, rest) else none
  | '?' :: rest => if canQ then some (.rep r 0 (some 1) false, rest) else none
  | '\x7b' :: rest =>
    (match rest.span Char.isDigit with
    | (ds, '\x7d' :: rest2) =>
      if ds.isEmpty || !canQ then none
      else some (.rep r (digitsToNat ds) (some (digitsToNat ds)) false, rest2)
    | (ds, ',' :: rest2) =>
      (match rest2.span Char.isDigit with
      | (ds2, '\x7d' :: rest3) =>
        if ds.isEmpty || ds2.isEmpty || !canQ then none
        else some (.rep r (digitsToNat ds) (some (digitsToNat ds2)) false, rest3)
      | _ => none)
    | _ => none)
  | _ => some (r, s)

mutual

/-- Parse a sequence of quantified atoms, stopping at `)` or end. -/
def parseSeqR : Nat → Reg → List Char → Option (Reg × List Char)
  | 0, _, _ => none
  | fuel + 1, acc, s =>
    match s with
    | [] => some (acc, [])
    | ')' :: _ => some (acc, s)
    | _ =>
      match parseAtom fuel s with
      | none => none
      | some (r, canQ, s1) =>
        match parseQuant r canQ s1 with
        | none => none
        | some (r2, s2) => parseSeqR fuel (.seq acc r2) s2

/-- Parse one atom: a group, an escape, `.`, or a literal character.
Returns the atom, whether a quantifier may follow, and the rest.
Constructs outside the modelled fragment (classes, alternation,
mid-pattern anchors, unknown escapes, …) yield `none`. -/
def parseAtom : Nat → List Char → Option (Reg × Bool × List Char)
  | 0, _ => none
  | fuel + 1, s =>
    match s with
    | [] => none
    | '(' :: '?' :: 'P' :: '<' :: rest =>
      (match rest.span (fun c => c ≠ '>') with
      | (nm, '>' :: rest3) =>
        if nm.isEmpty then none
        else
          match parseSeqR fuel .eps rest3 with
          | some (r, ')' :: rest4) => some (.grp nm.asString r, false, rest4)
          | _ => none
      | _ => none)
    | '(' :: '?' :: ':' :: rest =>
      (match parseSeqR fuel .eps rest with
      | some (r, ')' :: rest4) => some (r, true, rest4)
      | _ => none)
    | '(' :: '?' :: _ => none
    | '(' :: rest =>
      (match parseSeqR fuel .eps rest with
      | some (r, ')' :: rest4) => some (r, true, rest4)
      | _ => none)
    | '\\' :: c :: rest =>
      if c = 'd' then some (.digit, true, rest)
      else if c = 's' then some (.wsp, true, rest)
      else if c.isAlphanum then none
      else some (.lit c, true, rest)
    | '.' :: rest => some (.dot, true, rest)
    | c :: rest =>
      if c = '*' || c = '+' || c = '?' || c = '\x7b' || c = '[' || c = ']' ||
          c = '|' || c = '^' || c = '$' || c = '\\' then none
      else some (.lit c, true, rest)

end

/-- The named groups of a pattern, in order. -/
def regNames : Reg → List String
  | .eps | .lit _ | .dot | .digit | .wsp => []
  | .seq a b => regNames a ++ regNames b
  | .grp n r => n :: regNames r
  | .rep r _ _ _ => regNames r

/-- Standalone `re.compile(inner)` success for an ignore regex: the inner
pattern is in the modelled fragment (duplicate group names are a host
`re.error`). -/
def reOkInner (s : List Char) : Bool :=
  match parseSeqR (2 * s.length + 4) .eps s with
  | some (r, []) => decide ((regNames r).Nodup)
  | _ => false

/-- Parse a full generated pattern `^ ... $`. -/
def regexParseAnch (s : List Char) : Option Reg :=
  match s with
  | '^' :: rest =>
    if rest.getLast? = some '$' then
      match parseSeqR (2 * rest.length + 4) .eps rest.dropLast with
      | some (r, []) => if (regNames r).Nodup then some r else none
      | _ => none
    else none
  | _ => none

/-! ## Template compilation (`_compile_template`) -/

/-- `PLACEHOLDER_PATTERNS`, in the source dictionary's insertion order. -/
def PLACEHOLDER_PATTERNS : List (List Char × List Char) :=
  [("%songname%".toList, "(?P<songname>.+?)".toList),
   ("%hh%".toList, "(?P<hh>\\d\x7b1,2\x7d)".toList),
   ("%mm%".toList, "(?P<mm>\\d\x7b1,3\x7d)".toList),
   ("%ss%".toList, "(?P<ss>\\d\x7b2\x7d)".toList)]

def DEFAULT_TEMPLATE : String := "%songname% - %mm%:%ss%"

/-- The pattern string `_compile_template` hands to `re.compile`:
escape the template, replace each escaped standard placeholder with its
grammar pattern, replace each escaped `%ignore:...%` occurrence with a
non-capturing group around the raw inner regex, and anchor. -/
def buildPattern (template : List Char) : List Char :=
  let ignores := findIgnores template
  let pat := reEscape template
  let pat := PLACEHOLDER_PATTERNS.foldl
    (fun p ph => listReplace p (reEscape ph.1) ph.2) pat
  let pat := ignores.foldl
    (fun p ig => listReplace p (reEscape ig.1) ('(' :: '?' :: ':' :: ig.2 ++ [')'])) pat
  '^' :: pat ++ ['$']

/-- `_compile_template`: `none` models `re.error` (or a construct outside
the modelled regex fragment). -/
def compileTemplate (template : List Char) : Option Reg :=
  regexParseAnch (buildPattern template)

/-! ## Data model -/

structure ParsedTrack where
  name : String
  hours : Nat
  minutes : Nat
  seconds : Nat
  line_number : Nat
deriving Repr, DecidableEq

def ParsedTrack.total_seconds (p : ParsedTrack) : Nat :=
  p.hours * 3600 + p.minutes * 60 + p.seconds

structure TemplateValidation where
  is_valid : Bool
  error : Option String := none
  missing_placeholders : List String := []
deriving Repr, DecidableEq

structure Track where
  name : String
  start_seconds : Nat
  end_seconds : Option Nat := none
deriving Repr, DecidableEq

/-- `ParseError` carries a message; a propagating `re.error` (never hit
behind a successful validation) is kept distinct because the parsing
loops catch only `ParseError`. -/
inductive PErr where
  | parseError (msg : String)
  | reError
deriving Repr, DecidableEq

/-! ## `validate_template` -/

/-- `sorted(REQUIRED_PLACEHOLDERS)`: lexicographically `%mm%` <
`%songname%` < `%ss%`. -/
def REQUIRED_SORTED : List String := ["%mm%", "%songname%", "%ss%"]

/-- `sorted(REQUIRED_PLACEHOLDERS - found_placeholders)`: the required
placeholders, in sorted order, that do not occur in the template as a
substring. -/
def missingOf (template : String) : List String :=
  REQUIRED_SORTED.filter (fun p => !containsSub template.toList p.toList)

/-- The first `%ignore:...%` inner regex that fails standalone
compilation, if any. -/
def firstBadIgnore (template : String) : Option (List Char) :=
  ((findIgnores template.toList).filter (fun ig => !reOkInner ig.2)).head?.map (·.2)

def validate_template (template : String) : TemplateValidation :=
  if template.toList.isEmpty || (pyStrip template.toList).isEmpty then
    { is_valid := false, error := some "Template cannot be empty" }
  else if !(missingOf template).isEmpty then
    { is_valid := false
      error := some ("Missing required placeholders: " ++
        String.intercalate ", " (missingOf template))
      missing_placeholders := missingOf template }
  else
    match firstBadIgnore template with
    | some inner =>
      { is_valid := false
        error := some ("Invalid regex in %ignore:" ++ inner.asString ++ "%: bad pattern") }
    | none =>
      match compileTemplate template.toList with
      | none => { is_valid := false, error := some "Invalid template pattern: bad pattern" }
      | some _ => { is_valid := true }

/-! ## `parse_line` -/

/-- `int()` on a captured group: the captures the grammar produces are
non-empty digit runs; anything else is the defended
`ValueError`/`KeyError` path. -/
def toNatDigits (l : List Char) : Option Nat :=
  if !l.isEmpty && l.all Char.isDigit then some (digitsToNat l) else none

/-- `int(groups.get("hh", 0) or 0)`: a missing or empty capture is 0. -/
def hoursOf (caps : Caps) : Option Nat :=
  match lookupCap "hh" caps with
  | none => some 0
  | some [] => some 0
  | some cs => toNatDigits cs

def parse_line (line : String) (template : String) (line_number : Nat) :
    Except PErr ParsedTrack :=
  match compileTemplate template.toList with
  | none => .error .reError
  | some pattern =>
    match doFullMatch pattern (pyStrip line.toList) with
    | none => .error (.parseError
        ("Line " ++ toString line_number ++ ": Does not match template format"))
    | some caps =>
      let songname := pyStrip ((lookupCap "songname" caps).getD [])
      if songname.isEmpty then
        .error (.parseError ("Line " ++ toString line_number ++ ": Song name is empty"))
      else
        match hoursOf caps, (lookupCap "mm" caps).bind toNatDigits,
            (lookupCap "ss" caps).bind toNatDigits with
        | some hours, some minutes, some seconds =>
          if seconds ≥ 60 then
            .error (.parseError ("Line " ++ toString line_number ++
              ": Seconds must be less than 60 (got " ++ toString seconds ++ ")"))
          else
            .ok { name := songname.asString, hours := hours, minutes := minutes,
                  seconds := seconds, line_number := line_number }
        | _, _, _ =>
          .error (.parseError ("Line " ++ toString line_number ++ ": Invalid time format"))

/-! ## `parse_tracklist_with_template` (strict mode) -/

/-- The loop over `enumerate(lines, 1)`: strip each line, skip blanks,
collect parsed tracks and `ParseError` messages in order.  `none` models
a propagating exception other than `ParseError` (impossible behind a
successful validation). -/
def processLines (template : String) :
    List (List Char) → Nat → Option (List ParsedTrack × List String)
  | [], _ => some ([], [])
  | l :: ls, i =>
    let l' := pyStrip l
    if l'.isEmpty then processLines template ls (i + 1)
    else
      match parse_line l'.asString template i with
      | .ok p => (processLines template ls (i + 1)).map (fun r => (p :: r.1, r.2))
      | .error (.parseError m) =>
        (processLines template ls (i + 1)).map (fun r => (r.1, m :: r.2))
      | .error .reError => none

/-- One step of the stable insertion used to model
`parsed_tracks.sort(key=lambda t: t.total_seconds)`: insert after every
element with a key less than or equal. -/
def insertByTotal (x : ParsedTrack) : List ParsedTrack → List ParsedTrack
  | [] => [x]
  | y :: ys =>
    if y.total_seconds ≤ x.total_seconds then y :: insertByTotal x ys
    else x :: y :: ys

/-- Stable sort ascending by `total_seconds` (Python `list.sort` with a
key is stable; this left-to-right insertion is the same function). -/
def sortByTotal (l : List ParsedTrack) : List ParsedTrack :=
  l.foldl (fun acc x => insertByTotal x acc) []

/-- The end-time derivation loop: each track's `end_seconds` is the next
sorted track's start; the last is left `None`. -/
def buildTracks : List ParsedTrack → List Track
  | [] => []
  | [p] => [{ name := p.name, start_seconds := p.total_seconds }]
  | p :: q :: rest =>
    { name := p.name, start_seconds := p.total_seconds,
      end_seconds := some q.total_seconds } :: buildTracks (q :: rest)

def parse_tracklist_with_template (text : String)
    (template : String := DEFAULT_TEMPLATE) : Except PErr (List Track) :=
  let validation := validate_template template
  if !validation.is_valid then
    .error (.parseError ("Invalid template: " ++ validation.error.getD ""))
  else if (pyStrip text.toList).isEmpty then
    .error (.parseError "Tracklist is empty")
  else
    match processLines template (splitNL (pyStrip text.toList)) 1 with
    | none => .error .reError
    | some (parsed, errors) =>
      if !errors.isEmpty then .error (.parseError (String.intercalate "\n" errors))
      else if parsed.isEmpty then
        .error (.parseError "No valid tracks found in tracklist")
      else .ok (buildTracks (sortByTotal parsed))

/-! ## `preview_parse` -/

structure TrackPreview where
  line_number : Nat
  name : String
  timestamp : String
  is_valid : Bool
  error : Option String := none
deriving Repr, DecidableEq

structure ParsePreview where
  tracks : List TrackPreview
  is_valid : Bool
  error_count : Nat
  total_lines : Nat
deriving Repr, DecidableEq

/-- Python `"{:02d}".format(n)` for a natural number. -/
def pad2 (n : Nat) : String := if n < 10 then "0" ++ toString n else toString n

/-- The display timestamp: `H:MM:SS` when hours > 0, else `M:SS`
(minutes unpadded, seconds two digits). -/
def fmtTimestamp (p : ParsedTrack) : String :=
  if p.hours > 0 then
    toString p.hours ++ ":" ++ pad2 p.minutes ++ ":" ++ pad2 p.seconds
  else
    toString p.minutes ++ ":" ++ pad2 p.seconds

/-- `line[:30] + "..." if len(line) > 30 else line` on the stripped line. -/
def truncName (l : List Char) : String :=
  if l.length > 30 then (l.take 30).asString ++ "..." else l.asString

/-- The preview loop: one `TrackPreview` per non-blank line, in original
order, plus (error count, non-blank line count). -/
def previewLines (template : String) :
    List (List Char) → Nat → Option (List TrackPreview × Nat × Nat)
  | [], _ => some ([], 0, 0)
  | l :: ls, i =>
    let l' := pyStrip l
    if l'.isEmpty then previewLines template ls (i + 1)
    else
      match parse_line l'.asString template i with
      | .ok p =>
        (previewLines template ls (i + 1)).map (fun r =>
          ({ line_number := i, name := p.name, timestamp := fmtTimestamp p,
             is_valid := true } :: r.1, r.2.1, r.2.2 + 1))
      | .error (.parseError m) =>
        (previewLines template ls (i + 1)).map (fun r =>
          ({ line_number := i, name := truncName l', timestamp := "--:--",
             is_valid := false, error := some m } :: r.1, r.2.1 + 1, r.2.2 + 1))
      | .error .reError => none

def preview_parse (text : String) (template : String := DEFAULT_TEMPLATE) :
    ParsePreview :=
  if !(validate_template template).is_valid then
    { tracks := [], is_valid := false, error_count := 1, total_lines := 0 }
  else if (pyStrip text.toList).isEmpty then
    { tracks := [], is_valid := true, error_count := 0, total_lines := 0 }
  else
    match previewLines template (splitNL (pyStrip text.toList)) 1 with
    | none =>
      -- unreachable: a validated template compiles, so `parse_line`
      -- only ever raises `ParseError`, which the loop catches
      { tracks := [], is_valid := false, error_count := 1, total_lines := 0 }
    | some (previews, error_count, valid_line_count) =>
      { tracks := previews
        is_valid := error_count == 0 && valid_line_count > 0
        error_count := error_count
        total_lines := valid_line_count }

/-! ## Derived notions used by the statements below -/

/-- The 1-based positions of the non-blank lines in a line list,
counting from `i`; blank lines consume a position but contribute none. -/
def nonBlankPositionsFrom (i : Nat) : List (List Char) → List Nat
  | [] => []
  | l :: ls =>
    if (pyStrip l).isEmpty then nonBlankPositionsFrom (i + 1) ls
    else i :: nonBlankPositionsFrom (i + 1) ls

/-- 1-based positions of the non-blank lines. -/
def nonBlankPositions (ls : List (List Char)) : List Nat :=
  nonBlankPositionsFrom 1 ls

/-- `p` is a leading segment of `s`. -/
def leadsWith : List Char → List Char → Bool
  | [], _ => true
  | _ :: _, [] => false
  | p :: ps, s :: ss => p = s && leadsWith ps ss

/-- The seconds value the compiled template captures on a line, before
`parse_line`'s own range check. -/
def capturedSeconds (line template : String) : Option Nat :=
  (compileTemplate template.toList).bind fun pattern =>
    (doFullMatch pattern (pyStrip line.toList)).bind fun caps =>
      (lookupCap "ss" caps).bind toNatDigits

/-- All fields the compiled template extracts from a line: trimmed song
name, hours (defaulted), minutes, seconds — everything `parse_line`
checks after a successful match. -/
def matchFields (line template : String) : Option (String × Nat × Nat × Nat) :=
  (compileTemplate template.toList).bind fun pattern =>
    (doFullMatch pattern (pyStrip line.toList)).bind fun caps =>
      (hoursOf caps).bind fun h =>
        ((lookupCap "mm" caps).bind toNatDigits).bind fun m =>
          ((lookupCap "ss" caps).bind toNatDigits).bind fun s =>
            some ((pyStrip ((lookupCap "songname" caps).getD [])).asString, h, m, s)

/-- The output-shape contract of strict parsing: sorted ascending by
start time, each non-final track ends where the next starts, and the
(existing) final track is open-ended. -/
def tracksChained (tracks : List Track) : Prop :=
  List.Pairwise (fun a b => a.start_seconds ≤ b.start_seconds) tracks ∧
  (∀ i, (h : i + 1 < tracks.length) →
    (tracks.get ⟨i, by omega⟩).end_seconds = some (tracks.get ⟨i + 1, h⟩).start_seconds) ∧
  tracks ≠ [] ∧
  ∀ h : tracks ≠ [], (tracks.getLast h).end_seconds = none

/-- Preview-mode line numbering: the previews carry exactly the 1-based
positions of the non-blank lines of the *stripped* text, in order. -/
def previewNumbering (text template : String) : Prop :=
  (preview_parse text template).tracks.map (fun t => t.line_number) =
    nonBlankPositions (splitNL (pyStrip text.toList))

/-- Strict-mode line numbering: collected tracks carry a subsequence of
the non-blank positions of the stripped text, and every collected error
message starts with `Line {p}:` for such a position. -/
def strictNumbering (text template : String) : Prop :=
  ∀ ps es, processLines template (splitNL (pyStrip text.toList)) 1 = some (ps, es) →
    List.Sublist (ps.map (fun p => p.line_number))
      (nonBlankPositions (splitNL (pyStrip text.toList))) ∧
    (∀ e ∈ es, ∃ p ∈ nonBlankPositions (splitNL (pyStrip text.toList)),
      leadsWith ("Line " ++ toString p ++ ":").toList e.toList = true) ∧
    -- per-line association: the non-blank line at 0-based index j (1-based
    -- position j + 1) yields, for ITS OWN parse outcome, a collected track
    -- numbered j + 1 or a collected message tagged `Line {j+1}:`
    ∀ j l, (splitNL (pyStrip text.toList))[j]? = some l →
      (pyStrip l).isEmpty = false →
      (∀ p, parse_line (pyStrip l).asString template (j + 1) = .ok p →
        p ∈ ps ∧ p.line_number = j + 1) ∧
      (∀ m, parse_line (pyStrip l).asString template (j + 1) = .error (.parseError m) →
        m ∈ es ∧
        leadsWith ("Line " ++ toString (j + 1) ++ ":").toList m.toList = true)

/-- Preview-mode rendering contract.  First half: every row in the
preview has the rendered shape (valid rows show `fmtTimestamp` of a
parsed line, invalid rows the fixed placeholder and a truncated stripped
line).  Second half, the per-line association: the non-blank line at
0-based index j yields exactly ITS OWN row — on success the row numbered
j + 1 carrying that line's parsed name and `fmtTimestamp` of that parse
(`H:MM:SS` zero-padded when hours > 0, else `M:SS`); on failure the row
numbered j + 1 carrying `--:--`, that line's stripped text truncated to
30 characters plus `...` exactly when longer, and that line's error. -/
def previewRendering (text template : String) : Prop :=
  (∀ tp ∈ (preview_parse text template).tracks,
    (tp.is_valid = true → ∃ p : ParsedTrack, p.seconds < 60 ∧ tp.name = p.name ∧
      tp.line_number = p.line_number ∧ tp.timestamp = fmtTimestamp p ∧
      (0 < p.hours →
        tp.timestamp = toString p.hours ++ ":" ++ pad2 p.minutes ++ ":" ++ pad2 p.seconds) ∧
      (p.hours = 0 → tp.timestamp = toString p.minutes ++ ":" ++ pad2 p.seconds)) ∧
    (tp.is_valid = false → tp.timestamp = "--:--" ∧ ∃ l : List Char,
      tp.name = truncName (pyStrip l) ∧
      (30 < (pyStrip l).length → tp.name = ((pyStrip l).take 30).asString ++ "...") ∧
      ((pyStrip l).length ≤ 30 → tp.name = (pyStrip l).asString))) ∧
  ∀ j l, (splitNL (pyStrip text.toList))[j]? = some l →
    (pyStrip l).isEmpty = false →
    (∀ p, parse_line (pyStrip l).asString template (j + 1) = .ok p →
      p.seconds < 60 ∧
      ({ line_number := j + 1, name := p.name, timestamp := fmtTimestamp p,
          is_valid := true } : TrackPreview) ∈ (preview_parse text template).tracks ∧
      (0 < p.hours →
        fmtTimestamp p = toString p.hours ++ ":" ++ pad2 p.minutes ++ ":" ++ pad2 p.seconds) ∧
      (p.hours = 0 → fmtTimestamp p = toString p.minutes ++ ":" ++ pad2 p.seconds)) ∧
    (∀ m, parse_line (pyStrip l).asString template (j + 1) = .error (.parseError m) →
      ({ line_number := j + 1, name := truncName (pyStrip l), timestamp := "--:--",
          is_valid := false, error := some m } : TrackPreview) ∈
        (preview_parse text template).tracks ∧
      (30 < (pyStrip l).length →
        truncName (pyStrip l) = ((pyStrip l).take 30).asString ++ "...") ∧
      ((pyStrip l).length ≤ 30 → truncName (pyStrip l) = (pyStrip l).asString))

/-! ## Lemmas -/

theorem leadsWith_of_append (p r : List Char) : leadsWith p (p ++ r) = true := by
  induction p with
  | nil => rfl
  | cons c cs ih => simp [leadsWith, ih]

theorem mem_insertByTotal (x z : ParsedTrack) :
    ∀ l, z ∈ insertByTotal x l ↔ z = x ∨ z ∈ l := by
  intro l
  induction l with
  | nil =>
    simp only [insertByTotal, List.mem_singleton, List.not_mem_nil, or_false]
  | cons y ys ih =>
    by_cases hy : y.total_seconds ≤ x.total_seconds
    · simp only [insertByTotal, if_pos hy, List.mem_cons, ih]
      exact or_left_comm
    · simp only [insertByTotal, if_neg hy, List.mem_cons]

theorem pairwise_insertByTotal {x : ParsedTrack} {l : List ParsedTrack}
    (h : List.Pairwise (fun a b => a.total_seconds ≤ b.total_seconds) l) :
    List.Pairwise (fun a b => a.total_seconds ≤ b.total_seconds) (insertByTotal x l) := by
  induction l with
  | nil => simp [insertByTotal]
  | cons y ys ih =>
    rcases List.pairwise_cons.mp h with ⟨hy1, hy2⟩
    by_cases hy : y.total_seconds ≤ x.total_seconds
    · simp only [insertByTotal, if_pos hy]
      refine List.pairwise_cons.mpr ⟨?_, ih hy2⟩
      intro z hz
      rcases (mem_insertByTotal x z ys).mp hz with hz | hz
      · exact hz ▸ hy
      · exact hy1 z hz
    · simp only [insertByTotal, if_neg hy]
      refine List.pairwise_cons.mpr ⟨?_, h⟩
      intro z hz
      rcases List.mem_cons.mp hz with hz | hz
      · subst hz; omega
      · exact le_trans (by omega) (hy1 z hz)

theorem pairwise_sortByTotal (l : List ParsedTrack) :
    List.Pairwise (fun a b => a.total_seconds ≤ b.total_seconds) (sortByTotal l) := by
  have key : ∀ (xs : List ParsedTrack) (acc : List ParsedTrack),
      List.Pairwise (fun a b => a.total_seconds ≤ b.total_seconds) acc →
      List.Pairwise (fun a b => a.total_seconds ≤ b.total_seconds)
        (xs.foldl (fun acc x => insertByTotal x acc) acc) := by
    intro xs
    induction xs with
    | nil => intro acc h; simpa using h
    | cons x xs ih => intro acc h; exact ih _ (pairwise_insertByTotal h)
  exact key l [] (by simp)

theorem length_insertByTotal (x : ParsedTrack) :
    ∀ l : List ParsedTrack, (insertByTotal x l).length = l.length + 1 := by
  intro l
  induction l with
  | nil => rfl
  | cons y ys ih =>
    by_cases hy : y.total_seconds ≤ x.total_seconds
    · simp [insertByTotal, if_pos hy, ih]
    · simp [insertByTotal, if_neg hy]

theorem length_sortByTotal (l : List ParsedTrack) :
    (sortByTotal l).length = l.length := by
  have key : ∀ (xs acc : List ParsedTrack),
      (xs.foldl (fun acc x => insertByTotal x acc) acc).length = acc.length + xs.length := by
    intro xs
    induction xs with
    | nil => intro acc; simp
    | cons x xs ih =>
      intro acc
      simp only [List.foldl_cons, ih, length_insertByTotal, List.length_cons]
      omega
  simpa using key l []

theorem buildTracks_start_eq : ∀ l : List ParsedTrack,
    (buildTracks l).map (fun t => t.start_seconds) = l.map (fun p => p.total_seconds)
  | [] => rfl
  | [p] => rfl
  | p :: q :: rest => by
    simp only [buildTracks, List.map_cons]
    rw [show (buildTracks (q :: rest)).map (fun t => t.start_seconds) =
      (q :: rest).map (fun p => p.total_seconds) from buildTracks_start_eq (q :: rest)]
    simp

theorem buildTracks_length : ∀ l : List ParsedTrack, (buildTracks l).length = l.length := by
  intro l
  have := buildTracks_start_eq l
  have h1 := congrArg List.length this
  simpa using h1

theorem buildTracks_chain : ∀ (l : List ParsedTrack) (i : Nat)
    (h : i + 1 < (buildTracks l).length),
    ((buildTracks l).get ⟨i, by omega⟩).end_seconds =
      some ((buildTracks l).get ⟨i + 1, h⟩).start_seconds
  | [], i, h => by simp [buildTracks] at h
  | [p], i, h => by simp [buildTracks] at h
  | p :: q :: rest, 0, h => by
    cases rest <;> rfl
  | p :: q :: rest, i + 1, h => by
    have h' : i + 1 < (buildTracks (q :: rest)).length := by
      have hl := buildTracks_length (p :: q :: rest)
      have hl' := buildTracks_length (q :: rest)
      simp only [List.length_cons] at hl hl' h ⊢
      omega
    have := buildTracks_chain (q :: rest) i h'
    simpa [buildTracks] using this

theorem buildTracks_ne_nil {l : List ParsedTrack} (h : l ≠ []) : buildTracks l ≠ [] := by
  intro hc
  have := buildTracks_length l
  rw [hc] at this
  simp only [List.length_nil] at this
  exact h (List.length_eq_zero.mp this.symm)

theorem buildTracks_getLast? : ∀ l : List ParsedTrack, l ≠ [] →
    ∃ t : Track, (buildTracks l).getLast? = some t ∧ t.end_seconds = none
  | [], h => absurd rfl h
  | [p], _ => ⟨{ name := p.name, start_seconds := p.total_seconds }, rfl, rfl⟩
  | p :: q :: rest, _ => by
    obtain ⟨t, ht1, ht2⟩ := buildTracks_getLast? (q :: rest) (by simp)
    refine ⟨t, ?_, ht2⟩
    obtain ⟨y, ys, hys⟩ := List.exists_cons_of_ne_nil (buildTracks_ne_nil
      (show q :: rest ≠ [] by simp))
    have hstep : buildTracks (p :: q :: rest) =
        Track.mk p.name p.total_seconds (some q.total_seconds) ::
          buildTracks (q :: rest) := rfl
    rw [hstep, hys, List.getLast?_cons_cons, ← hys, ht1]

theorem buildTracks_last (l : List ParsedTrack) (h : buildTracks l ≠ []) (hl : l ≠ []) :
    ((buildTracks l).getLast h).end_seconds = none := by
  obtain ⟨t, ht1, ht2⟩ := buildTracks_getLast? l hl
  have := List.getLast?_eq_getLast (buildTracks l) h
  rw [this] at ht1
  cases ht1
  exact ht2

theorem toList_append (s t : String) : (s ++ t).toList = s.toList ++ t.toList := rfl

theorem leadsWith_line_aux (i : Nat) (rest : List Char) :
    leadsWith ("Line ".toList ++ ((toString i).toList ++ [':']))
      ("Line ".toList ++ ((toString i).toList ++ (':' :: rest))) = true := by
  have h : "Line ".toList ++ ((toString i).toList ++ (':' :: rest)) =
      ("Line ".toList ++ ((toString i).toList ++ [':'])) ++ rest := by simp
  rw [h]
  exact leadsWith_of_append _ _

/-- A successful `parse_line` carries the caller's line number and a
seconds value below 60. -/
theorem parse_line_ok (l t : String) (i : Nat) (p : ParsedTrack)
    (h : parse_line l t i = .ok p) : p.line_number = i ∧ p.seconds < 60 := by
  unfold parse_line at h
  split at h
  · exact Except.noConfusion h
  · split at h
    · exact Except.noConfusion h
    · split at h
      · split at h
        · simp only [] at h
          split at h <;> exact Except.noConfusion h
        · simp only [] at h
          split at h
          · exact Except.noConfusion h
          · cases h
            refine ⟨rfl, ?_⟩
            simp only []
            omega
      · simp only [] at h
        split at h <;> exact Except.noConfusion h

/-- Every `ParseError` message of `parse_line` starts with its
`Line {i}:` tag. -/
theorem parse_line_err (l t : String) (i : Nat) (m : String)
    (h : parse_line l t i = .error (.parseError m)) :
    leadsWith ("Line " ++ toString i ++ ":").toList m.toList = true := by
  unfold parse_line at h
  split at h
  · cases h
  · split at h
    · cases h
      exact leadsWith_line_aux i (" Does not match template format".toList)
    · split at h
      · rename_i hours minutes seconds hh hm hs
        split at h
        · simp only [] at h
          split at h
          · cases h
            exact leadsWith_line_aux i (" Song name is empty".toList)
          · cases h
            have hm : ("Line " ++ toString i ++ ": Seconds must be less than 60 (got " ++
                toString seconds ++ ")").toList =
                "Line ".toList ++ ((toString i).toList ++ (':' ::
                  (" Seconds must be less than 60 (got ".toList ++
                    ((toString seconds).toList ++ [')'])))) := by
              simp only [toList_append, List.append_assoc]
              rfl
            rw [hm]
            exact leadsWith_line_aux i _
        · simp only [] at h
          split at h
          · cases h
            exact leadsWith_line_aux i (" Song name is empty".toList)
          · exact Except.noConfusion h
      · simp only [] at h
        split at h
        · cases h
          exact leadsWith_line_aux i (" Song name is empty".toList)
        · cases h
          exact leadsWith_line_aux i (" Invalid time format".toList)

/-- Behind a compiling template, `parse_line` only ever fails with a
`ParseError`. -/
theorem parse_line_ne_reError {template : String} {r : Reg}
    (hc : compileTemplate template.toList = some r) (l : String) (i : Nat) :
    parse_line l template i ≠ .error .reError := by
  intro h
  unfold parse_line at h
  split at h
  · rename_i heq
    rw [hc] at heq
    exact Option.noConfusion heq
  · split at h
    · cases h
    · split at h
      · split at h
        · simp only [] at h
          split at h <;> cases h
        · simp only [] at h
          split at h <;> cases h
      · simp only [] at h
        split at h <;> cases h

theorem validate_ok_compiles {template : String}
    (h : (validate_template template).is_valid = true) :
    ∃ r, compileTemplate template.toList = some r := by
  unfold validate_template at h
  split at h
  · cases h
  · split at h
    · cases h
    · split at h
      · cases h
      · split at h
        · cases h
        · rename_i r hr
          exact ⟨r, hr⟩

theorem previewLines_isSome {template : String} {r : Reg}
    (hc : compileTemplate template.toList = some r) :
    ∀ (ls : List (List Char)) (i : Nat), (previewLines template ls i).isSome := by
  intro ls
  induction ls with
  | nil => intro i; rfl
  | cons l ls ih =>
    intro i
    rw [previewLines]
    split
    · exact ih (i + 1)
    · split
      · obtain ⟨rec, hrec⟩ := Option.isSome_iff_exists.mp (ih (i + 1))
        rw [hrec]
        rfl
      · obtain ⟨rec, hrec⟩ := Option.isSome_iff_exists.mp (ih (i + 1))
        rw [hrec]
        rfl
      · rename_i hp
        exact absurd hp (parse_line_ne_reError hc _ _)

theorem processLines_isSome {template : String} {r : Reg}
    (hc : compileTemplate template.toList = some r) :
    ∀ (ls : List (List Char)) (i : Nat), (processLines template ls i).isSome := by
  intro ls
  induction ls with
  | nil => intro i; rfl
  | cons l ls ih =>
    intro i
    rw [processLines]
    split
    · exact ih (i + 1)
    · split
      · obtain ⟨rec, hrec⟩ := Option.isSome_iff_exists.mp (ih (i + 1))
        rw [hrec]
        rfl
      · obtain ⟨rec, hrec⟩ := Option.isSome_iff_exists.mp (ih (i + 1))
        rw [hrec]
        rfl
      · rename_i hp
        exact absurd hp (parse_line_ne_reError hc _ _)

/-- Preview rows carry exactly the positions of the non-blank lines. -/
theorem previewLines_numbers (template : String) :
    ∀ (ls : List (List Char)) (i : Nat) (tps : List TrackPreview) (ec vc : Nat),
    previewLines template ls i = some (tps, ec, vc) →
    tps.map (fun t => t.line_number) = nonBlankPositionsFrom i ls := by
  intro ls
  induction ls with
  | nil =>
    intro i tps ec vc h
    cases h
    rfl
  | cons l ls ih =>
    intro i tps ec vc h
    rw [previewLines] at h
    rw [nonBlankPositionsFrom]
    split at h
    · rename_i hb
      rw [if_pos hb]
      exact ih (i + 1) tps ec vc h
    · rename_i hb
      rw [if_neg hb]
      split at h
      · rcases Option.map_eq_some'.mp h with ⟨rec, hrec, hf⟩
        cases hf
        simp only [List.map_cons]
        rw [ih (i + 1) rec.1 rec.2.1 rec.2.2 (by rw [hrec])]
      · rcases Option.map_eq_some'.mp h with ⟨rec, hrec, hf⟩
        cases hf
        simp only [List.map_cons]
        rw [ih (i + 1) rec.1 rec.2.1 rec.2.2 (by rw [hrec])]
      · cases h

/-- Strict-mode tracks carry a subsequence of the non-blank positions,
and every collected message is tagged with such a position. -/
theorem processLines_numbers (template : String) :
    ∀ (ls : List (List Char)) (i : Nat) (ps : List ParsedTrack) (es : List String),
    processLines template ls i = some (ps, es) →
    List.Sublist (ps.map (fun p => p.line_number)) (nonBlankPositionsFrom i ls) ∧
    ∀ e ∈ es, ∃ p ∈ nonBlankPositionsFrom i ls,
      leadsWith ("Line " ++ toString p ++ ":").toList e.toList = true := by
  intro ls
  induction ls with
  | nil =>
    intro i ps es h
    cases h
    exact ⟨List.Sublist.refl _, by simp⟩
  | cons l ls ih =>
    intro i ps es h
    rw [processLines] at h
    rw [nonBlankPositionsFrom]
    split at h
    · rename_i hb
      rw [if_pos hb]
      exact ih (i + 1) ps es h
    · rename_i hb
      rw [if_neg hb]
      split at h
      · rename_i p' hp'
        rcases Option.map_eq_some'.mp h with ⟨rec, hrec, hf⟩
        cases hf
        obtain ⟨ih1, ih2⟩ := ih (i + 1) rec.1 rec.2 (by rw [hrec])
        constructor
        · simp only [List.map_cons]
          rw [(parse_line_ok _ _ _ _ hp').1]
          exact List.Sublist.cons₂ i ih1
        · intro e he
          obtain ⟨p, hp1, hp2⟩ := ih2 e he
          exact ⟨p, List.mem_cons_of_mem i hp1, hp2⟩
      · rename_i m hm
        rcases Option.map_eq_some'.mp h with ⟨rec, hrec, hf⟩
        cases hf
        obtain ⟨ih1, ih2⟩ := ih (i + 1) rec.1 rec.2 (by rw [hrec])
        constructor
        · exact List.Sublist.cons i ih1
        · intro e he
          rcases List.mem_cons.mp he with he | he
          · subst he
            exact ⟨i, List.mem_cons_self i _, parse_line_err _ _ _ _ hm⟩
          · obtain ⟨p, hp1, hp2⟩ := ih2 e he
            exact ⟨p, List.mem_cons_of_mem i hp1, hp2⟩
      · cases h

theorem fmtTimestamp_pos {p : ParsedTrack} (h : 0 < p.hours) :
    fmtTimestamp p = toString p.hours ++ ":" ++ pad2 p.minutes ++ ":" ++ pad2 p.seconds := by
  rw [fmtTimestamp, if_pos h]

theorem fmtTimestamp_zero {p : ParsedTrack} (h : p.hours = 0) :
    fmtTimestamp p = toString p.minutes ++ ":" ++ pad2 p.seconds := by
  rw [fmtTimestamp, if_neg (by omega)]

theorem truncName_long {l : List Char} (h : 30 < l.length) :
    truncName l = (l.take 30).asString ++ "..." := by
  rw [truncName, if_pos h]

theorem truncName_short {l : List Char} (h : l.length ≤ 30) :
    truncName l = l.asString := by
  rw [truncName, if_neg (by omega)]

/-- Shape of every preview row: valid rows render a parsed line, invalid
rows show the placeholder and the truncated stripped line. -/
theorem previewLines_shape (template : String) :
    ∀ (ls : List (List Char)) (i : Nat) (tps : List TrackPreview) (ec vc : Nat),
    previewLines template ls i = some (tps, ec, vc) →
    ∀ tp ∈ tps,
      (tp.is_valid = true → ∃ p : ParsedTrack, p.seconds < 60 ∧ tp.name = p.name ∧
        tp.line_number = p.line_number ∧ tp.timestamp = fmtTimestamp p) ∧
      (tp.is_valid = false → tp.timestamp = "--:--" ∧
        ∃ l : List Char, tp.name = truncName (pyStrip l)) := by
  intro ls
  induction ls with
  | nil =>
    intro i tps ec vc h
    cases h
    intro tp htp
    cases htp
  | cons l ls ih =>
    intro i tps ec vc h
    rw [previewLines] at h
    split at h
    · exact ih (i + 1) tps ec vc h
    · split at h
      · rename_i p' hp'
        rcases Option.map_eq_some'.mp h with ⟨rec, hrec, hf⟩
        cases hf
        intro tp htp
        rcases List.mem_cons.mp htp with htp | htp
        · subst htp
          refine ⟨fun _ => ⟨p', (parse_line_ok _ _ _ _ hp').2, rfl,
            ((parse_line_ok _ _ _ _ hp').1).symm, rfl⟩, fun hfalse => ?_⟩
          exact Bool.noConfusion hfalse
        · exact ih (i + 1) rec.1 rec.2.1 rec.2.2 (by rw [hrec]) tp htp
      · rename_i m hm
        rcases Option.map_eq_some'.mp h with ⟨rec, hrec, hf⟩
        cases hf
        intro tp htp
        rcases List.mem_cons.mp htp with htp | htp
        · subst htp
          exact ⟨fun htrue => Bool.noConfusion htrue, fun _ => ⟨rfl, l, rfl⟩⟩
        · exact ih (i + 1) rec.1 rec.2.1 rec.2.2 (by rw [hrec]) tp htp
      · cases h

theorem scanInnerGo_shape (l : List Char) : ∀ (acc inner rest : List Char),
    scanInnerGo acc l = some (inner, rest) →
    ∃ pre, inner = acc.reverse ++ pre ∧ (∀ c ∈ pre, c ≠ '%' ∧ c ≠ '\n') ∧
      l = pre ++ '%' :: rest := by
  induction l with
  | nil => intro acc inner rest h; simp [scanInnerGo] at h
  | cons d ds ih =>
    intro acc inner rest h
    by_cases hd : d = '%'
    · refine ⟨[], ?_, by simp, ?_⟩
      · simp [scanInnerGo, hd] at h
        simp [← h.1]
      · simp [scanInnerGo, hd] at h
        simp [hd, h.2]
    · by_cases hn : d = '\n'
      · simp [scanInnerGo, hd, hn] at h
      · simp only [scanInnerGo, if_neg hd, if_neg hn] at h
        obtain ⟨pre, hpre1, hpre2, hpre3⟩ := ih (d :: acc) inner rest h
        refine ⟨d :: pre, ?_, ?_, by simp [hpre3]⟩
        · simpa using hpre1
        · intro c hc
          rcases List.mem_cons.mp hc with hc | hc
          · exact hc ▸ ⟨hd, hn⟩
          · exact hpre2 c hc

theorem scanInner_shape {s inner rest : List Char}
    (h : scanInner s = some (inner, rest)) :
    inner ≠ [] ∧ (∀ c ∈ inner, c ≠ '\n') ∧ (∀ c ∈ inner.drop 1, c ≠ '%') ∧
      s = inner ++ '%' :: rest := by
  match s with
  | [] => simp [scanInner] at h
  | c :: s' =>
    by_cases hn : c = '\n'
    · simp [scanInner, hn] at h
    · simp only [scanInner, if_neg hn] at h
      obtain ⟨pre, h1, h2, h3⟩ := scanInnerGo_shape s' [c] inner rest h
      simp only [List.reverse_cons, List.reverse_nil, List.nil_append,
        List.singleton_append] at h1
      refine ⟨by simp [h1], ?_, ?_, by simp [h1, h3]⟩
      · intro x hx
        rw [h1] at hx
        rcases List.mem_cons.mp hx with hx | hx
        · exact hx ▸ hn
        · exact (h2 x hx).2
      · intro x hx
        rw [h1] at hx
        simp only [List.drop_one, List.tail_cons] at hx
        exact (h2 x hx).1

/-- Every `finditer` hit pairs a whole token `%ignore:<inner>%` with a
non-empty, newline-free inner text whose characters after the first are
never `%`. -/
theorem findIgnoresGo_shape : ∀ (fuel : Nat) (s full inner : List Char),
    (full, inner) ∈ findIgnoresGo fuel s →
    inner ≠ [] ∧ (∀ c ∈ inner.drop 1, c ≠ '%') ∧ (∀ c ∈ inner, c ≠ '\n') ∧
    full = ignoreLead ++ inner ++ ['%'] := by
  intro fuel
  induction fuel with
  | zero =>
    intro s full inner h
    cases h
  | succ fuel ih =>
    intro s full inner h
    cases s with
    | nil => cases h
    | cons c cs =>
      rw [findIgnoresGo] at h
      split at h
      · split at h
        · rename_i inner' rest hsc
          rcases List.mem_cons.mp h with h | h
          · obtain ⟨h1, h2⟩ := Prod.mk.injEq .. |>.mp h
            subst h2
            obtain ⟨hs1, hs2, hs3, _⟩ := scanInner_shape hsc
            exact ⟨hs1, hs3, hs2, h1⟩
          · exact ih rest full inner h
        · exact ih cs full inner h
      · exact ih cs full inner h

/-- Per-line association of the strict loop, with running start index
`i0`: the line at 0-based index `j` is processed as line number `i0 + j`,
and its own parse outcome lands in the collected tracks (with that
number) or in the collected messages (with that tag). -/
theorem processLines_assoc (template : String) :
    ∀ (ls : List (List Char)) (i0 : Nat) (ps : List ParsedTrack) (es : List String),
    processLines template ls i0 = some (ps, es) →
    ∀ (j : Nat) (l : List Char), ls[j]? = some l → (pyStrip l).isEmpty = false →
      (∀ p, parse_line (pyStrip l).asString template (i0 + j) = .ok p →
        p ∈ ps ∧ p.line_number = i0 + j) ∧
      (∀ m, parse_line (pyStrip l).asString template (i0 + j) = .error (.parseError m) →
        m ∈ es ∧
        leadsWith ("Line " ++ toString (i0 + j) ++ ":").toList m.toList = true) := by
  intro ls
  induction ls with
  | nil =>
    intro i0 ps es h j l hget
    simp at hget
  | cons l0 ls ih =>
    intro i0 ps es h j l hget hnb
    rw [processLines] at h
    split at h
    · rename_i hb
      cases j with
      | zero =>
        rw [List.getElem?_cons_zero] at hget
        injection hget with hget0
        subst hget0
        rw [hnb] at hb
        exact Bool.noConfusion hb
      | succ j' =>
        rw [List.getElem?_cons_succ] at hget
        have e : i0 + (j' + 1) = i0 + 1 + j' := by omega
        rw [e]
        exact ih (i0 + 1) ps es h j' l hget hnb
    · rename_i hb
      split at h
      · rename_i p0 hp0
        rcases Option.map_eq_some'.mp h with ⟨rec, hrec, hf⟩
        cases hf
        cases j with
        | zero =>
          rw [List.getElem?_cons_zero] at hget
          injection hget with hget0
          subst hget0
          simp only [Nat.add_zero]
          constructor
          · intro p hpk
            rw [hp0] at hpk
            cases Except.ok.inj hpk
            exact ⟨List.mem_cons_self _ _, (parse_line_ok _ _ _ _ hp0).1⟩
          · intro m hpm
            rw [hp0] at hpm
            exact Except.noConfusion hpm
        | succ j' =>
          rw [List.getElem?_cons_succ] at hget
          have e : i0 + (j' + 1) = i0 + 1 + j' := by omega
          rw [e]
          obtain ⟨c1, c2⟩ := ih (i0 + 1) rec.1 rec.2 (by rw [hrec]) j' l hget hnb
          exact ⟨fun p hp => ⟨List.mem_cons_of_mem _ (c1 p hp).1, (c1 p hp).2⟩, c2⟩
      · rename_i m0 hm0
        rcases Option.map_eq_some'.mp h with ⟨rec, hrec, hf⟩
        cases hf
        cases j with
        | zero =>
          rw [List.getElem?_cons_zero] at hget
          injection hget with hget0
          subst hget0
          simp only [Nat.add_zero]
          constructor
          · intro p hpk
            rw [hm0] at hpk
            exact Except.noConfusion hpk
          · intro m hpm
            rw [hm0] at hpm
            cases PErr.parseError.inj (Except.error.inj hpm)
            exact ⟨List.mem_cons_self _ _, parse_line_err _ _ _ _ hm0⟩
        | succ j' =>
          rw [List.getElem?_cons_succ] at hget
          have e : i0 + (j' + 1) = i0 + 1 + j' := by omega
          rw [e]
          obtain ⟨c1, c2⟩ := ih (i0 + 1) rec.1 rec.2 (by rw [hrec]) j' l hget hnb
          exact ⟨c1, fun m hm => ⟨List.mem_cons_of_mem _ (c2 m hm).1, (c2 m hm).2⟩⟩
      · cases h

/-- Per-line association of the preview loop: the line at 0-based index
`j` is processed as line number `i0 + j`, and the preview contains its
own rendered row — the successfully parsed fields, or the placeholder
with that line's truncated text and error message. -/
theorem previewLines_assoc (template : String) :
    ∀ (ls : List (List Char)) (i0 : Nat) (tps : List TrackPreview) (ec vc : Nat),
    previewLines template ls i0 = some (tps, ec, vc) →
    ∀ (j : Nat) (l : List Char), ls[j]? = some l → (pyStrip l).isEmpty = false →
      (∀ p, parse_line (pyStrip l).asString template (i0 + j) = .ok p →
        ({ line_number := i0 + j, name := p.name, timestamp := fmtTimestamp p,
            is_valid := true } : TrackPreview) ∈ tps) ∧
      (∀ m, parse_line (pyStrip l).asString template (i0 + j) = .error (.parseError m) →
        ({ line_number := i0 + j, name := truncName (pyStrip l), timestamp := "--:--",
            is_valid := false, error := some m } : TrackPreview) ∈ tps) := by
  intro ls
  induction ls with
  | nil =>
    intro i0 tps ec vc h j l hget
    simp at hget
  | cons l0 ls ih =>
    intro i0 tps ec vc h j l hget hnb
    rw [previewLines] at h
    split at h
    · rename_i hb
      cases j with
      | zero =>
        rw [List.getElem?_cons_zero] at hget
        injection hget with hget0
        subst hget0
        rw [hnb] at hb
        exact Bool.noConfusion hb
      | succ j' =>
        rw [List.getElem?_cons_succ] at hget
        have e : i0 + (j' + 1) = i0 + 1 + j' := by omega
        rw [e]
        exact ih (i0 + 1) tps ec vc h j' l hget hnb
    · rename_i hb
      split at h
      · rename_i p0 hp0
        rcases Option.map_eq_some'.mp h with ⟨rec, hrec, hf⟩
        cases hf
        cases j with
        | zero =>
          rw [List.getElem?_cons_zero] at hget
          injection hget with hget0
          subst hget0
          simp only [Nat.add_zero]
          constructor
          · intro p hpk
            rw [hp0] at hpk
            cases Except.ok.inj hpk
            exact List.mem_cons_self _ _
          · intro m hpm
            rw [hp0] at hpm
            exact Except.noConfusion hpm
        | succ j' =>
          rw [List.getElem?_cons_succ] at hget
          have e : i0 + (j' + 1) = i0 + 1 + j' := by omega
          rw [e]
          obtain ⟨c1, c2⟩ := ih (i0 + 1) rec.1 rec.2.1 rec.2.2 (by rw [hrec]) j' l hget hnb
          exact ⟨fun p hp => List.mem_cons_of_mem _ (c1 p hp),
            fun m hm => List.mem_cons_of_mem _ (c2 m hm)⟩
      · rename_i m0 hm0
        rcases Option.map_eq_some'.mp h with ⟨rec, hrec, hf⟩
        cases hf
        cases j with
        | zero =>
          rw [List.getElem?_cons_zero] at hget
          injection hget with hget0
          subst hget0
          simp only [Nat.add_zero]
          constructor
          · intro p hpk
            rw [hm0] at hpk
            exact Except.noConfusion hpk
          · intro m hpm
            rw [hm0] at hpm
            cases PErr.parseError.inj (Except.error.inj hpm)
            exact List.mem_cons_self _ _
        | succ j' =>
          rw [List.getElem?_cons_succ] at hget
          have e : i0 + (j' + 1) = i0 + 1 + j' := by omega
          rw [e]
          obtain ⟨c1, c2⟩ := ih (i0 + 1) rec.1 rec.2.1 rec.2.2 (by rw [hrec]) j' l hget hnb
          exact ⟨fun p hp => List.mem_cons_of_mem _ (c1 p hp),
            fun m hm => List.mem_cons_of_mem _ (c2 m hm)⟩
      · cases h

/-! ## Claims -/

/-- C1 (counterexample): on the spec's three-line scenario the code
returns Second = [180, 360) and Third starting at 360 (6:00 is 360
seconds), not the claimed 390. -/
theorem claim1_counterexample :
    parse_tracklist_with_template "Third - 6:00\nFirst - 0:00\nSecond - 3:00"
        DEFAULT_TEMPLATE =
      .ok [{ name := "First", start_seconds := 0, end_seconds := some 180 },
           { name := "Second", start_seconds := 180, end_seconds := some 360 },
           { name := "Third", start_seconds := 360, end_seconds := none }] ∧
    parse_tracklist_with_template "Third - 6:00\nFirst - 0:00\nSecond - 3:00"
        DEFAULT_TEMPLATE ≠
      .ok [{ name := "First", start_seconds := 0, end_seconds := some 180 },
           { name := "Second", start_seconds := 180, end_seconds := some 390 },
           { name := "Third", start_seconds := 390, end_seconds := none }] :=
  ⟨by rfl, fun hc => absurd (Except.ok.inj hc) (by decide)⟩

/-- C1 (amended): for the input "Third - 6:00" / "First - 0:00" /
"Second - 3:00" and the default template, the parser returns exactly
First [0, 180), Second [180, 360), Third [360, open). -/
theorem claim1 :
    parse_tracklist_with_template "Third - 6:00\nFirst - 0:00\nSecond - 3:00"
        DEFAULT_TEMPLATE =
      .ok [{ name := "First", start_seconds := 0, end_seconds := some 180 },
           { name := "Second", start_seconds := 180, end_seconds := some 360 },
           { name := "Third", start_seconds := 360, end_seconds := none }] := by
  rfl

/-- C2: whenever strict parsing succeeds, the tracks are sorted ascending
by start time, each non-final track's end equals the next track's start,
and the final track's end is absent. -/
theorem claim2 (text template : String) (tracks : List Track)
    (h : parse_tracklist_with_template text template = .ok tracks) :
    tracksChained tracks := by
  unfold parse_tracklist_with_template at h
  simp only [] at h
  split at h
  · exact Except.noConfusion h
  · split at h
    · exact Except.noConfusion h
    · split at h
      · exact Except.noConfusion h
      · rename_i parsed errors heq
        split at h
        · exact Except.noConfusion h
        · split at h
          · exact Except.noConfusion h
          · rename_i herr hparsed
            cases h
            have hpe : parsed ≠ [] := by
              intro hc
              rw [hc] at hparsed
              exact hparsed rfl
            have hsne : sortByTotal parsed ≠ [] := by
              intro hc
              have := length_sortByTotal parsed
              rw [hc] at this
              exact hpe (List.length_eq_zero.mp this.symm)
            refine ⟨?_, buildTracks_chain _, buildTracks_ne_nil hsne, ?_⟩
            · have hs := pairwise_sortByTotal parsed
              exact List.pairwise_map.mp (by
                rw [buildTracks_start_eq]
                exact List.pairwise_map.mpr hs)
            · intro hne
              exact buildTracks_last _ hne hsne

/-- C2 (witness): the chained-output contract at the spec's concrete
scenario. -/
theorem claim2_witness :
    tracksChained
      [{ name := "First", start_seconds := 0, end_seconds := some 180 },
       { name := "Second", start_seconds := 180, end_seconds := some 360 },
       { name := "Third", start_seconds := 360, end_seconds := none }] :=
  claim2 "Third - 6:00\nFirst - 0:00\nSecond - 3:00" DEFAULT_TEMPLATE _ (by rfl)

/-- C3 (counterexample): on empty text with the default template the
preview is valid yet has zero lines, so the claimed equivalence
`is_valid ↔ (error_count = 0 ∧ total_lines > 0)` fails. -/
theorem claim3_counterexample :
    ¬ ((preview_parse "" DEFAULT_TEMPLATE).is_valid = true ↔
      ((preview_parse "" DEFAULT_TEMPLATE).error_count = 0 ∧
       (preview_parse "" DEFAULT_TEMPLATE).total_lines > 0)) := by
  decide

/-- C3 (amended): for every text and template,
`is_valid ↔ (error_count = 0 ∧ (total_lines > 0 ∨ the text strips to
empty))` — blank input is the one valid zero-line state. -/
theorem claim3 (text template : String) :
    (preview_parse text template).is_valid = true ↔
      ((preview_parse text template).error_count = 0 ∧
       ((preview_parse text template).total_lines > 0 ∨ pyStrip text.toList = [])) := by
  unfold preview_parse
  split
  · simp
  · rename_i hv
    split
    · rename_i hstrip
      simp only []
      have h0 : pyStrip text.data = [] := by simpa using hstrip
      simp [h0, String.toList]
    · rename_i hstrip
      have hne : pyStrip text.toList ≠ [] := by simpa using hstrip
      split
      · simp
      · rename_i rec heq
        simp only [Bool.and_eq_true, beq_iff_eq, decide_eq_true_eq]
        constructor
        · rintro ⟨h1, h2⟩
          exact ⟨h1, Or.inl h2⟩
        · rintro ⟨h1, h2⟩
          rcases h2 with h2 | h2
          · exact ⟨h1, h2⟩
          · exact absurd h2 hne

/-- C4 (counterexample): for the text `"\nx"` the single preview row is
numbered 1, while the non-blank line sits at position 2 of the original
(unstripped) text — leading blank lines are dropped before numbering. -/
theorem claim4_counterexample :
    (preview_parse "\nx" DEFAULT_TEMPLATE).tracks.map (fun t => t.line_number) = [1] ∧
    nonBlankPositions (splitNL ("\nx".toList)) = [2] ∧
    (preview_parse "\nx" DEFAULT_TEMPLATE).tracks.map (fun t => t.line_number) ≠
      nonBlankPositions (splitNL ("\nx".toList)) :=
  ⟨by rfl, by rfl, by decide⟩

/-- C4 (amended): with a valid template, the 1-based numbers attached to
preview rows are exactly the non-blank positions of the *stripped* text
(interior blank lines still consume a number), and in strict mode each
non-blank line's own outcome carries that line's own position: the line
at 0-based index j yields a collected track numbered j + 1 or a
collected diagnostic tagged `Line {j+1}:`. -/
theorem claim4 (text template : String)
    (h : (validate_template template).is_valid = true) :
    previewNumbering text template ∧ strictNumbering text template := by
  obtain ⟨r, hr⟩ := validate_ok_compiles h
  constructor
  · unfold previewNumbering preview_parse
    rw [h]
    simp only [Bool.not_true]
    rw [if_neg (by simp)]
    by_cases hstrip : (pyStrip text.toList).isEmpty
    · rw [if_pos hstrip]
      have : pyStrip text.toList = [] := by simpa using hstrip
      rw [this]
      rfl
    · rw [if_neg hstrip]
      obtain ⟨rec, hrec⟩ := Option.isSome_iff_exists.mp
        (previewLines_isSome hr (splitNL (pyStrip text.toList)) 1)
      rw [hrec]
      exact previewLines_numbers template _ 1 rec.1 rec.2.1 rec.2.2 (by rw [hrec])
  · intro ps es hp
    obtain ⟨h1, h2⟩ := processLines_numbers template _ 1 ps es hp
    refine ⟨h1, h2, ?_⟩
    intro j l hget hnb
    have e : 1 + j = j + 1 := Nat.add_comm 1 j
    have ha := processLines_assoc template _ 1 ps es hp j l hget hnb
    rw [e] at ha
    exact ha

/-- C4 (witness): numbering at a concrete input with an interior blank
line. -/
theorem claim4_witness :
    previewNumbering "A - 0:00\n\nB - 1:00" DEFAULT_TEMPLATE ∧
    strictNumbering "A - 0:00\n\nB - 1:00" DEFAULT_TEMPLATE :=
  claim4 "A - 0:00\n\nB - 1:00" DEFAULT_TEMPLATE (by rfl)

/-- C5: with a valid template and non-blank text, if any non-blank line
fails, strict parsing raises the single newline-joined concatenation of
every failing line's message, each keeping its `Line {p}:` prefix, and no
track list is returned. -/
theorem claim5 (text template : String) (ps : List ParsedTrack) (es : List String)
    (hv : (validate_template template).is_valid = true)
    (ht : pyStrip text.toList ≠ [])
    (hp : processLines template (splitNL (pyStrip text.toList)) 1 = some (ps, es))
    (he : es ≠ []) :
    parse_tracklist_with_template text template =
      .error (.parseError (String.intercalate "\n" es)) ∧
    ∀ e ∈ es, ∃ p ∈ nonBlankPositions (splitNL (pyStrip text.toList)),
      leadsWith ("Line " ++ toString p ++ ":").toList e.toList = true := by
  constructor
  · unfold parse_tracklist_with_template
    simp only []
    rw [hv]
    simp only [Bool.not_true]
    rw [if_neg (by simp)]
    rw [if_neg (by simpa using ht)]
    rw [hp]
    simp only []
    rw [if_pos (by simpa using he)]
  · intro e he'
    exact (processLines_numbers template _ 1 ps es hp).2 e he'

/-- C5 (witness): a concrete mixed input whose two failing lines are
aggregated into one failure. -/
theorem claim5_witness :
    parse_tracklist_with_template "bad\nGood - 0:10\nworse" DEFAULT_TEMPLATE =
      .error (.parseError (String.intercalate "\n"
        ["Line 1: Does not match template format",
         "Line 3: Does not match template format"])) ∧
    ∀ e ∈ ["Line 1: Does not match template format",
           "Line 3: Does not match template format"],
      ∃ p ∈ nonBlankPositions (splitNL (pyStrip "bad\nGood - 0:10\nworse".toList)),
        leadsWith ("Line " ++ toString p ++ ":").toList e.toList = true :=
  claim5 "bad\nGood - 0:10\nworse" DEFAULT_TEMPLATE
    [{ name := "Good", hours := 0, minutes := 0, seconds := 10, line_number := 2 }]
    ["Line 1: Does not match template format",
     "Line 3: Does not match template format"]
    (by rfl) (by decide) (by rfl) (by decide)

/-- C6: `parse_line` rejects any line whose captured seconds value is 60
or more ("1:75" fails with a message mentioning "60", "1:59" succeeds),
while the extracted minutes and hours are accepted unbounded: whenever
the template matches with a non-empty name and seconds below 60,
`parse_line` succeeds no matter how large minutes or hours are. -/
theorem claim6 :
    (∃ m, parse_line "Track - 1:75" DEFAULT_TEMPLATE 1 = .error (.parseError m) ∧
      containsSub m.toList "60".toList = true) ∧
    (∃ p, parse_line "Track - 1:59" DEFAULT_TEMPLATE 1 = .ok p ∧
      p.minutes = 1 ∧ p.seconds = 59) ∧
    (∀ (line template : String) (n s : Nat),
      capturedSeconds line template = some s → 60 ≤ s →
      ∃ m, parse_line line template n = .error (.parseError m)) ∧
    (∀ (line template : String) (n : Nat) (name : String) (hv mv sv : Nat),
      matchFields line template = some (name, hv, mv, sv) → name ≠ "" → sv < 60 →
      parse_line line template n =
        .ok { name := name, hours := hv, minutes := mv, seconds := sv,
              line_number := n }) := by
  refine ⟨⟨"Line 1: Seconds must be less than 60 (got 75)", by rfl, by rfl⟩,
    ⟨{ name := "Track", hours := 0, minutes := 1, seconds := 59, line_number := 1 },
      by rfl, rfl, rfl⟩, ?_, ?_⟩
  · intro line template n s hcs hge
    unfold capturedSeconds at hcs
    rcases Option.bind_eq_some.mp hcs with ⟨r, hr, hcs2⟩
    rcases Option.bind_eq_some.mp hcs2 with ⟨caps, hcaps, hcs3⟩
    by_cases hname : (pyStrip ((lookupCap "songname" caps).getD [])).isEmpty
    · exact ⟨"Line " ++ toString n ++ ": Song name is empty",
        by simp only [parse_line, hr, hcaps, if_pos hname]⟩
    · cases hh : hoursOf caps with
      | none =>
        exact ⟨"Line " ++ toString n ++ ": Invalid time format",
          by simp only [parse_line, hr, hcaps, if_neg hname, hh, hcs3]⟩
      | some hv =>
        cases h2 : (lookupCap "mm" caps).bind toNatDigits with
        | none =>
          exact ⟨"Line " ++ toString n ++ ": Invalid time format",
            by simp only [parse_line, hr, hcaps, if_neg hname, hh, h2, hcs3]⟩
        | some mv =>
          exact ⟨"Line " ++ toString n ++ ": Seconds must be less than 60 (got " ++
              toString s ++ ")",
            by simp only [parse_line, hr, hcaps, if_neg hname, hh, h2, hcs3,
              if_pos hge]⟩
  · intro line template n name hv mv sv hmf hname hs
    unfold matchFields at hmf
    rcases Option.bind_eq_some.mp hmf with ⟨r, hr, h2⟩
    rcases Option.bind_eq_some.mp h2 with ⟨caps, hcaps, h3⟩
    rcases Option.bind_eq_some.mp h3 with ⟨hv', hhv, h4⟩
    rcases Option.bind_eq_some.mp h4 with ⟨mv', hmv, h5⟩
    rcases Option.bind_eq_some.mp h5 with ⟨sv', hsv, h6⟩
    have h7 := Option.some.inj h6
    obtain ⟨e1, e2, e3, e4⟩ : (pyStrip ((lookupCap "songname" caps).getD [])).asString
        = name ∧ hv' = hv ∧ mv' = mv ∧ sv' = sv := by
      simpa [Prod.ext_iff] using h7
    have hnb : ¬ ((pyStrip ((lookupCap "songname" caps).getD [])).isEmpty = true) := by
      intro hc
      exact hname (by rw [← e1, List.isEmpty_iff.mp hc]; rfl)
    simp only [parse_line, hr, hcaps, if_neg hnb, hhv, hmv, hsv,
      if_neg (show ¬ (sv' ≥ 60) by omega)]
    rw [e1, e2, e3, e4]

/-- C6 (witness): seconds 99 is captured and rejected at line 7; minutes
99 (with no `%hh%` in the default template) is accepted. -/
theorem claim6_witness :
    (∃ m, parse_line "X - 2:99" DEFAULT_TEMPLATE 7 = .error (.parseError m)) ∧
    parse_line "Track - 99:59" DEFAULT_TEMPLATE 3 =
      .ok { name := "Track", hours := 0, minutes := 99, seconds := 59,
            line_number := 3 } :=
  ⟨claim6.2.2.1 "X - 2:99" DEFAULT_TEMPLATE 7 99 (by rfl) (by decide),
   claim6.2.2.2 "Track - 99:59" DEFAULT_TEMPLATE 3 "Track" 0 99 59
     (by rfl) (by decide) (by decide)⟩

/-- C7: a non-empty template missing required placeholders is rejected
with one error listing precisely the missing tokens, sorted and
comma-joined, and `missing_placeholders` holds exactly those tokens in
sorted order; in particular `"%songname%"` reports `%mm%` and `%ss%`
together. -/
theorem claim7 :
    (∀ template : String, template.toList ≠ [] → pyStrip template.toList ≠ [] →
      missingOf template ≠ [] →
      validate_template template =
        { is_valid := false
          error := some ("Missing required placeholders: " ++
            String.intercalate ", " (missingOf template))
          missing_placeholders := missingOf template } ∧
      List.Pairwise (fun a b => a < b) (missingOf template) ∧
      ∀ p, p ∈ missingOf template ↔
        (p ∈ REQUIRED_SORTED ∧ containsSub template.toList p.toList = false)) ∧
    validate_template "%songname%" =
      { is_valid := false
        error := some "Missing required placeholders: %mm%, %ss%"
        missing_placeholders := ["%mm%", "%ss%"] } := by
  constructor
  · intro template h1 h2 h3
    refine ⟨?_, ?_, ?_⟩
    · unfold validate_template
      have hcond : ¬ ((template.toList.isEmpty ||
          (pyStrip template.toList).isEmpty) = true) := by
        intro hc
        rcases Bool.or_eq_true_iff.mp hc with hc | hc
        · exact h1 (List.isEmpty_iff.mp hc)
        · exact h2 (List.isEmpty_iff.mp hc)
      rw [if_neg hcond, if_pos (by simpa using h3)]
    · have hreq : List.Pairwise (fun a b : String => a < b) REQUIRED_SORTED := by
        refine List.Pairwise.cons ?_ (List.Pairwise.cons ?_ (List.pairwise_singleton _ _))
        · intro b hb
          rcases List.mem_cons.mp hb with hb | hb
          · subst hb
            exact String.lt_iff_toList_lt.mpr (by decide)
          · rw [List.mem_singleton] at hb
            subst hb
            exact String.lt_iff_toList_lt.mpr (by decide)
        · intro b hb
          rw [List.mem_singleton] at hb
          subst hb
          exact String.lt_iff_toList_lt.mpr (by decide)
      exact List.Pairwise.sublist (List.filter_sublist _) hreq
    · intro p
      simp [missingOf, List.mem_filter]
  · rfl

/-- C7 (witness): a concrete template missing one placeholder. -/
theorem claim7_witness :
    validate_template "%songname% - %ss%" =
      { is_valid := false
        error := some ("Missing required placeholders: " ++
          String.intercalate ", " (missingOf "%songname% - %ss%"))
        missing_placeholders := missingOf "%songname% - %ss%" } ∧
    List.Pairwise (fun a b => a < b) (missingOf "%songname% - %ss%") ∧
    ∀ p, p ∈ missingOf "%songname% - %ss%" ↔
      (p ∈ REQUIRED_SORTED ∧
        containsSub "%songname% - %ss%".toList p.toList = false) :=
  claim7.1 "%songname% - %ss%" (by decide) (by decide) (by decide)

/-- C8: the `%ignore:\d+\.%` token is spliced unescaped into the
compiled pattern as the non-capturing group `(?:\d+\.)` while the rest
of the template is escaped, and the two scenario lines parse to
"My Song" 3:45 and "X" 5:30. -/
theorem claim8 :
    (buildPattern "%ignore:\\d+\\.% %songname% - %mm%:%ss%".toList).asString =
      "^(?:\\d+\\.)\\ (?P<songname>.+?)\\ \\-\\ (?P<mm>\\d\x7b1,3\x7d):(?P<ss>\\d\x7b2\x7d)$" ∧
    parse_line "1. My Song - 3:45" "%ignore:\\d+\\.% %songname% - %mm%:%ss%" 1 =
      .ok { name := "My Song", hours := 0, minutes := 3, seconds := 45,
            line_number := 1 } ∧
    parse_line "10. X - 5:30" "%ignore:\\d+\\.% %songname% - %mm%:%ss%" 1 =
      .ok { name := "X", hours := 0, minutes := 5, seconds := 30,
            line_number := 1 } :=
  ⟨by rfl, by rfl, by rfl⟩

/-- C9: with a valid template, each successfully parsed line yields its
own preview row — numbered with that line's position and showing
`fmtTimestamp` of that line's parse, which is `H:MM:SS` (two-digit
minutes and seconds) when hours > 0 and `M:SS` otherwise — and each
failing line yields its own invalid row with the fixed `--:--`
placeholder and that line's stripped text truncated to 30 characters
plus `...` exactly when it is longer than 30 characters; moreover every
row in the preview has one of these two rendered shapes. -/
theorem claim9 (text template : String)
    (h : (validate_template template).is_valid = true) :
    previewRendering text template := by
  obtain ⟨r, hr⟩ := validate_ok_compiles h
  by_cases hstrip : (pyStrip text.toList).isEmpty
  · have hempty : pyStrip text.toList = [] := List.isEmpty_iff.mp hstrip
    constructor
    · intro tp htp
      unfold preview_parse at htp
      rw [h] at htp
      simp only [Bool.not_true] at htp
      rw [if_neg (by simp), if_pos hstrip] at htp
      cases htp
    · intro j l hget hnb
      rw [hempty] at hget
      cases j with
      | zero =>
        rw [show splitNL ([] : List Char) = [[]] from rfl,
          List.getElem?_cons_zero] at hget
        injection hget with hget0
        subst hget0
        exact absurd hnb (by decide)
      | succ j' =>
        rw [show splitNL ([] : List Char) = [[]] from rfl,
          List.getElem?_cons_succ] at hget
        simp at hget
  · obtain ⟨rec, hrec⟩ := Option.isSome_iff_exists.mp
      (previewLines_isSome hr (splitNL (pyStrip text.toList)) 1)
    have htr : (preview_parse text template).tracks = rec.1 := by
      unfold preview_parse
      rw [h]
      simp only [Bool.not_true]
      rw [if_neg (by simp), if_neg hstrip, hrec]
    constructor
    · intro tp htp
      rw [htr] at htp
      have hshape := previewLines_shape template _ 1 rec.1 rec.2.1 rec.2.2
        (by rw [hrec]) tp htp
      refine ⟨fun hv => ?_, fun hinv => ?_⟩
      · obtain ⟨p, hs, hn, hln, hts⟩ := hshape.1 hv
        exact ⟨p, hs, hn, hln, hts,
          fun hh => by rw [hts, fmtTimestamp_pos hh],
          fun hh => by rw [hts, fmtTimestamp_zero hh]⟩
      · obtain ⟨hts, l, hname⟩ := hshape.2 hinv
        exact ⟨hts, l, hname,
          fun hlen => by rw [hname, truncName_long hlen],
          fun hlen => by rw [hname, truncName_short hlen]⟩
    · intro j l hget hnb
      have e : 1 + j = j + 1 := Nat.add_comm 1 j
      have ha := previewLines_assoc template _ 1 rec.1 rec.2.1 rec.2.2
        (by rw [hrec]) j l hget hnb
      rw [e] at ha
      rw [htr]
      refine ⟨fun p hp => ?_, fun m hm => ?_⟩
      · exact ⟨(parse_line_ok _ _ _ _ hp).2, ha.1 p hp,
          fun hh => fmtTimestamp_pos hh, fun hh => fmtTimestamp_zero hh⟩
      · exact ⟨ha.2 m hm,
          fun hlen => truncName_long hlen, fun hlen => truncName_short hlen⟩

/-- C9 (witness): rendering at a concrete input with an hours line, a
short failing line, and a failing line longer than 30 characters. -/
theorem claim9_witness :
    previewRendering
      "Long - 1:30:45\nbad\nthis failing line is much longer than thirty characters"
      "%songname% - %hh%:%mm%:%ss%" :=
  claim9 _ _ (by rfl)

/-- C10 (counterexample): in the template `"%ignore:%x%"` the ignore
token's inner regex is `"%x"` — it contains a `%`, because the lazy
non-empty inner text runs to the *second* `%` when the first character
after `%ignore:` is itself `%`. -/
theorem claim10_counterexample :
    findIgnores "%ignore:%x%".toList = [("%ignore:%x%".toList, "%x".toList)] ∧
    '%' ∈ "%x".toList :=
  ⟨by rfl, by decide⟩

/-- C10 (amended): every `%ignore:...%` occurrence found in a template
has a non-empty, newline-free inner text that extends to the first `%`
at or after the second character past the prefix, so a `%` can appear in
the inner regex only as its first character, and the whole token is
exactly `%ignore:` ++ inner ++ `%`. -/
theorem claim10 (t full inner : List Char) (h : (full, inner) ∈ findIgnores t) :
    inner ≠ [] ∧ (∀ c ∈ inner.drop 1, c ≠ '%') ∧ (∀ c ∈ inner, c ≠ '\n') ∧
    full = ignoreLead ++ inner ++ ['%'] :=
  findIgnoresGo_shape _ t full inner h

/-- C10 (witness): the shape facts at the counterexample template. -/
theorem claim10_witness :
    "%x".toList ≠ [] ∧ (∀ c ∈ "%x".toList.drop 1, c ≠ '%') ∧
    (∀ c ∈ "%x".toList, c ≠ '\n') ∧
    "%ignore:%x%".toList = ignoreLead ++ "%x".toList ++ ['%'] :=
  claim10 "%ignore:%x%".toList "%ignore:%x%".toList "%x".toList (by decide)

end TemplateParser
